import Mathlib

/-!
Verification of the advanced-webcam-pwa core against its specification.

The TypeScript source is embedded shallowly:
* JS numbers are idealised as rationals (`ℚ`) wherever the properties under
  scrutiny are stated "within floating-point tolerance"; a separate `JSNum`
  type models IEEE special values (`Infinity`, `NaN`) where a claim is about
  exactly those (degenerate-input behaviour of `getDrawDimensions`).
* JS strings are modelled as `List Char` so that `Array.prototype.join` and
  `String.prototype.trim` can be reasoned about structurally.
* The React settings store (`Map<string, CameraSettings>` plus a mutable
  guard ref) is modelled by explicit state passing.
-/

namespace Webcam

/-! ## Geometry engine: `src/utils/canvasUtils.ts` -/

/-- The DrawDimensions record of canvasUtils.ts, over rationals. -/
structure DrawDimensions where
  drawWidth : ℚ
  drawHeight : ℚ
  offsetX : ℚ
  offsetY : ℚ
  deriving Repr, DecidableEq

/-- Embedding of `getDrawDimensions` from `src/utils/canvasUtils.ts` (lines
17–42) over `ℚ`: the source initialises `drawWidth/drawHeight` to the canvas
size and `offsetX/offsetY` to `0`, then overrides one pair in each branch of
the aspect-ratio comparison. -/
def getDrawDimensions (videoWidth videoHeight canvasWidth canvasHeight : ℚ) :
    DrawDimensions :=
  let videoAspectRatio := videoWidth / videoHeight
  let canvasAspectRatio := canvasWidth / canvasHeight
  if canvasAspectRatio > videoAspectRatio then
    -- Canvas is wider than video - letterbox on sides
    { drawWidth := canvasHeight * videoAspectRatio
      drawHeight := canvasHeight
      offsetX := (canvasWidth - canvasHeight * videoAspectRatio) / 2
      offsetY := 0 }
  else
    -- Canvas is taller than video - letterbox on top/bottom
    { drawWidth := canvasWidth
      drawHeight := canvasWidth / videoAspectRatio
      offsetX := 0
      offsetY := (canvasHeight - canvasWidth / videoAspectRatio) / 2 }

/-- C1: for positive dimensions, `getDrawDimensions` preserves the video
aspect ratio exactly (the `ℚ` idealisation of "within floating-point
tolerance"), both offsets are nonnegative, both offsets vanish when the two
aspect ratios agree, and exactly one of them vanishes otherwise. -/
theorem getDrawDimensions_aspect_offsets
    (vw vh cw ch : ℚ) (hvw : 0 < vw) (hvh : 0 < vh) (hcw : 0 < cw) (hch : 0 < ch) :
    (getDrawDimensions vw vh cw ch).drawWidth /
        (getDrawDimensions vw vh cw ch).drawHeight = vw / vh ∧
    0 ≤ (getDrawDimensions vw vh cw ch).offsetX ∧
    0 ≤ (getDrawDimensions vw vh cw ch).offsetY ∧
    (vw / vh = cw / ch →
      (getDrawDimensions vw vh cw ch).offsetX = 0 ∧
      (getDrawDimensions vw vh cw ch).offsetY = 0) ∧
    (vw / vh ≠ cw / ch →
      ((getDrawDimensions vw vh cw ch).offsetX = 0 ∧
        (getDrawDimensions vw vh cw ch).offsetY ≠ 0) ∨
      ((getDrawDimensions vw vh cw ch).offsetX ≠ 0 ∧
        (getDrawDimensions vw vh cw ch).offsetY = 0)) := by
  have hA : 0 < vw / vh := div_pos hvw hvh
  rw [getDrawDimensions]
  split_ifs with hgt
  · -- canvas wider: offsetX strictly positive, offsetY = 0
    have hlt : (vw / vh) * ch < cw := by
      have := (lt_div_iff₀ hch).mp hgt
      linarith
    have hcomm : ch * (vw / vh) = (vw / vh) * ch := mul_comm _ _
    have hne : vw / vh ≠ cw / ch := ne_of_lt hgt
    refine ⟨?_, ?_, le_refl 0, fun h => absurd h hne, fun _ => Or.inr ⟨?_, rfl⟩⟩
    · field_simp
      ring
    · linarith
    · have : 0 < (cw - ch * (vw / vh)) / 2 := by linarith
      exact ne_of_gt this
  · -- canvas not wider: offsetX = 0, offsetY ≥ 0 (zero iff aspects equal)
    push_neg at hgt
    have hle : cw / (vw / vh) ≤ ch := by
      rw [div_le_iff₀ hA]
      have := (div_le_iff₀ hch).mp hgt
      linarith
    have hY : 0 ≤ (ch - cw / (vw / vh)) / 2 := by linarith
    refine ⟨?_, le_refl 0, hY, fun h => ⟨rfl, ?_⟩, fun h => Or.inl ⟨rfl, ?_⟩⟩
    · rw [div_div_eq_mul_div, mul_comm, mul_div_assoc, div_self (ne_of_gt hcw), mul_one]
    · -- aspects equal ⇒ cw / (vw/vh) = ch ⇒ offsetY = 0
      have : cw / (vw / vh) = ch := by
        rw [h, div_div_eq_mul_div, mul_comm, mul_div_assoc, div_self (ne_of_gt hcw),
          mul_one]
      rw [this]
      ring
    · -- aspects distinct ⇒ strict inequality ⇒ offsetY > 0
      have hstrict : cw / ch < vw / vh := lt_of_le_of_ne hgt (fun hc => h hc.symm)
      have : cw / (vw / vh) < ch := by
        rw [div_lt_iff₀ hA]
        have := (div_lt_iff₀ hch).mp hstrict
        linarith
      have : 0 < (ch - cw / (vw / vh)) / 2 := by linarith
      exact ne_of_gt this

/-- Witness for C1 at the spec's own end-to-end scenario: a 1280×720 video in
a 1920×900 canvas. -/
theorem getDrawDimensions_aspect_offsets_witness :
    (getDrawDimensions 1280 720 1920 900).drawWidth /
        (getDrawDimensions 1280 720 1920 900).drawHeight = 1280 / 720 ∧
    0 ≤ (getDrawDimensions 1280 720 1920 900).offsetX ∧
    0 ≤ (getDrawDimensions 1280 720 1920 900).offsetY := by
  obtain ⟨h1, h2, h3, -, -⟩ :=
    getDrawDimensions_aspect_offsets 1280 720 1920 900
      (by norm_num) (by norm_num) (by norm_num) (by norm_num)
  exact ⟨h1, h2, h3⟩

/-! ## IEEE/JS number model for the degenerate-input behaviour of
`getDrawDimensions` (claim C9).

Division by zero, `Infinity` and `NaN` are exact (not rounded) aspects of JS
number semantics, so they are modelled precisely: a JS number is either a
finite value (idealised as a rational), a signed infinity, or `NaN`. Only the
operations used by `getDrawDimensions` are needed. -/

/-- A JavaScript number: finite, positive/negative infinity, or NaN. -/
inductive JSNum where
  | fin (q : ℚ)
  | posInf
  | negInf
  | nan
  deriving Repr, DecidableEq

namespace JSNum

/-- JS division, including division by zero (`x/0 = ±Infinity`, `0/0 = NaN`). -/
def div : JSNum → JSNum → JSNum
  | nan, _ => nan
  | _, nan => nan
  | fin a, fin b =>
      if b = 0 then (if a = 0 then nan else if 0 < a then posInf else negInf)
      else fin (a / b)
  | fin _, posInf => fin 0
  | fin _, negInf => fin 0
  | posInf, fin b => if 0 ≤ b then posInf else negInf
  | negInf, fin b => if 0 ≤ b then negInf else posInf
  | posInf, _ => nan
  | negInf, _ => nan

/-- JS multiplication (`Infinity * 0 = NaN`). -/
def mul : JSNum → JSNum → JSNum
  | nan, _ => nan
  | _, nan => nan
  | fin a, fin b => fin (a * b)
  | fin a, posInf => if a = 0 then nan else if 0 < a then posInf else negInf
  | fin a, negInf => if a = 0 then nan else if 0 < a then negInf else posInf
  | posInf, fin b => if b = 0 then nan else if 0 < b then posInf else negInf
  | negInf, fin b => if b = 0 then nan else if 0 < b then negInf else posInf
  | posInf, posInf => posInf
  | posInf, negInf => negInf
  | negInf, posInf => negInf
  | negInf, negInf => posInf

/-- JS subtraction. -/
def sub : JSNum → JSNum → JSNum
  | nan, _ => nan
  | _, nan => nan
  | fin a, fin b => fin (a - b)
  | fin _, posInf => negInf
  | fin _, negInf => posInf
  | posInf, fin _ => posInf
  | negInf, fin _ => negInf
  | posInf, posInf => nan
  | posInf, negInf => posInf
  | negInf, posInf => negInf
  | negInf, negInf => nan

/-- JS strict greater-than; any comparison involving NaN is false. -/
def gtb : JSNum → JSNum → Bool
  | nan, _ => false
  | _, nan => false
  | fin a, fin b => decide (b < a)
  | fin _, posInf => false
  | fin _, negInf => true
  | posInf, fin _ => true
  | negInf, fin _ => false
  | posInf, posInf => false
  | posInf, negInf => true
  | negInf, posInf => false
  | negInf, negInf => false

end JSNum

/-- The DrawDimensions record with JS-number fields, used to state what
`getDrawDimensions` actually returns on degenerate input. -/
structure DrawDimensionsJS where
  drawWidth : JSNum
  drawHeight : JSNum
  offsetX : JSNum
  offsetY : JSNum
  deriving Repr, DecidableEq

/-- Embedding of `getDrawDimensions` (`src/utils/canvasUtils.ts`, lines 17–42)
over the JS number model. The source has no guard, no thrown error and no
error return channel: it is a total function into `DrawDimensions`. -/
def getDrawDimensionsJS (videoWidth videoHeight canvasWidth canvasHeight : JSNum) :
    DrawDimensionsJS :=
  let videoAspectRatio := videoWidth.div videoHeight
  let canvasAspectRatio := canvasWidth.div canvasHeight
  if canvasAspectRatio.gtb videoAspectRatio then
    { drawWidth := canvasHeight.mul videoAspectRatio
      drawHeight := canvasHeight
      offsetX := (canvasWidth.sub (canvasHeight.mul videoAspectRatio)).div (JSNum.fin 2)
      offsetY := JSNum.fin 0 }
  else
    { drawWidth := canvasWidth
      drawHeight := canvasWidth.div videoAspectRatio
      offsetX := JSNum.fin 0
      offsetY := (canvasHeight.sub (canvasWidth.div videoAspectRatio)).div (JSNum.fin 2) }

/-- C9: on zero-height input `getDrawDimensions` does not signal an error; it
returns an ordinary DrawDimensions record. With `videoHeight = 0` (video
640×0, canvas 800×600) it silently returns a degenerate rectangle with
`drawHeight = 0`, and with `videoWidth = videoHeight = 0` the returned record
even contains NaN in `drawHeight` and `offsetY` — contradicting the claim that
degenerate input is handled by signaling an error rather than returning a
DrawDimensions containing NaN or Infinity. -/
theorem getDrawDimensionsJS_zero_height_returns_value :
    getDrawDimensionsJS (.fin 640) (.fin 0) (.fin 800) (.fin 600) =
      { drawWidth := .fin 800, drawHeight := .fin 0,
        offsetX := .fin 0, offsetY := .fin 300 } ∧
    getDrawDimensionsJS (.fin 0) (.fin 0) (.fin 800) (.fin 600) =
      { drawWidth := .fin 800, drawHeight := .nan,
        offsetX := .fin 0, offsetY := .nan } := by
  constructor <;>
    norm_num [getDrawDimensionsJS, JSNum.div, JSNum.mul, JSNum.sub, JSNum.gtb]

/-! ## Filter compositor: `buildFilter` (filterUtils, `src/unnamed/part_004`
lines 15–55).

JS strings are modelled as `List Char` so that `join(' ')` and `trim()` can be
reasoned about structurally. The JS number-to-string conversion used by the
template literals is modelled by `numToStr`; none of the proved properties
depend on its output (it only ever appears strictly inside a pushed chunk,
between non-whitespace literal characters). -/

/-- A JavaScript string, as its sequence of characters. -/
abbrev JSString := List Char

/-- Rendering of a JS number inside a template literal. The properties below
are independent of the digits produced, matching JS `Number::toString`. -/
def numToStr (q : ℚ) : JSString := (toString q).data

/-- JS `Array.prototype.join(' ')`. -/
def joinSpace : List JSString → JSString
  | [] => []
  | [s] => s
  | s :: rest => s ++ ' ' :: joinSpace rest

/-- Whitespace characters relevant to JS `String.prototype.trim`. -/
def isJsWhitespace (c : Char) : Bool :=
  c = ' ' || c = '\t' || c = '\n' || c = '\r'

/-- JS `String.prototype.trim`: strip leading and trailing whitespace. -/
def jsTrim (s : JSString) : JSString :=
  ((s.dropWhile isJsWhitespace).reverse.dropWhile isJsWhitespace).reverse

/-- The FilterType union of filterUtils. -/
inductive FilterType where
  | none | grayscale | sepia | invert | posterize | aqua | blackboard | whiteboard
  deriving Repr, DecidableEq

/-- The BlurMode union of filterUtils. -/
inductive BlurMode where
  | none | portrait | full
  deriving Repr, DecidableEq

/-- The FILTER_DEFINITIONS lookup table of filterUtils (lines 15–24). -/
def FILTER_DEFINITIONS : FilterType → JSString
  | .none => []
  | .grayscale => "grayscale(100%)".data
  | .sepia => "sepia(100%)".data
  | .invert => "invert(100%)".data
  | .posterize => "contrast(250%) saturate(200%)".data
  | .aqua => "sepia(50%) hue-rotate(180deg) saturate(200%)".data
  | .blackboard => "contrast(150%) brightness(120%) grayscale(100%) invert(100%)".data
  | .whiteboard => "contrast(200%) brightness(110%) grayscale(100%)".data

/-- The slice of CameraSettings consumed by `buildFilter`. -/
structure FilterSettings where
  hue : ℚ
  filter : FilterType
  blur : ℚ

/-- The `filters` array accumulated by `buildFilter` (lines 33–52): hue
rotation when `hue !== 0`, the filter definition when truthy (non-empty), then
the blur chunk (full-mode fixed 12px, else user blur when positive). -/
def buildFilterList (settings : FilterSettings) (blurMode : BlurMode) :
    List JSString :=
  (if settings.hue ≠ 0 then
      ["hue-rotate(".data ++ numToStr settings.hue ++ "deg)".data]
    else []) ++
  (if FILTER_DEFINITIONS settings.filter ≠ [] then
      [FILTER_DEFINITIONS settings.filter]
    else []) ++
  (if blurMode = .full then ["blur(12px)".data]
   else if settings.blur > 0 then
      ["blur(".data ++ numToStr settings.blur ++ "px)".data]
   else [])

/-- Embedding of `buildFilter` (lines 29–55). The source returns
`filters.join(' ').trim() || 'none'`; the empty string is the only falsy
string, hence the final conditional. -/
def buildFilter (settings : FilterSettings) (blurMode : BlurMode) : JSString :=
  let joined := jsTrim (joinSpace (buildFilterList settings blurMode))
  if joined = [] then "none".data else joined

/-- Sufficient condition for JS trim to be the identity: the string starts and
ends with non-whitespace characters. -/
theorem jsTrim_eq_self {s : JSString} {c d : Char}
    (hhead : s.head? = some c) (hc : isJsWhitespace c = false)
    (hlast : s.getLast? = some d) (hd : isJsWhitespace d = false) :
    jsTrim s = s := by
  cases s with
  | nil => simp at hhead
  | cons a t =>
    simp only [List.head?_cons, Option.some.injEq] at hhead
    subst hhead
    have h1 : (a :: t).dropWhile isJsWhitespace = a :: t := by
      simp [List.dropWhile_cons, hc]
    have hrev : (a :: t).reverse.head? = some d := by
      rw [List.head?_reverse]
      exact hlast
    rw [jsTrim, h1]
    cases hr : (a :: t).reverse with
    | nil => rw [hr] at hrev; simp at hrev
    | cons b u =>
      rw [hr] at hrev
      simp only [List.head?_cons, Option.some.injEq] at hrev
      subst hrev
      have h2 : (b :: u).dropWhile isJsWhitespace = b :: u := by
        simp [List.dropWhile_cons, hd]
      rw [h2, ← hr, List.reverse_reverse]

/-- A chunk ever pushed onto the `filters` array of `buildFilter`: it starts
with a non-whitespace character other than 'n' and ends with ')'. -/
def GoodChunk (e : JSString) : Prop :=
  (∃ c, e.head? = some c ∧ c ≠ 'n' ∧ isJsWhitespace c = false) ∧
  e.getLast? = some ')'

theorem goodChunk_hue (q : ℚ) :
    GoodChunk ("hue-rotate(".data ++ numToStr q ++ "deg)".data) :=
  ⟨⟨'h', rfl, by decide, by decide⟩, by
    rw [List.getLast?_append_of_ne_nil _ (by decide)]
    decide⟩

theorem goodChunk_filterDef (ft : FilterType) (h : FILTER_DEFINITIONS ft ≠ []) :
    GoodChunk (FILTER_DEFINITIONS ft) := by
  cases ft with
  | none => exact absurd rfl h
  | grayscale => exact ⟨⟨'g', rfl, by decide, by decide⟩, by decide⟩
  | sepia => exact ⟨⟨'s', rfl, by decide, by decide⟩, by decide⟩
  | invert => exact ⟨⟨'i', rfl, by decide, by decide⟩, by decide⟩
  | posterize => exact ⟨⟨'c', rfl, by decide, by decide⟩, by decide⟩
  | aqua => exact ⟨⟨'s', rfl, by decide, by decide⟩, by decide⟩
  | blackboard => exact ⟨⟨'c', rfl, by decide, by decide⟩, by decide⟩
  | whiteboard => exact ⟨⟨'c', rfl, by decide, by decide⟩, by decide⟩

theorem goodChunk_blurFull : GoodChunk ("blur(12px)".data) :=
  ⟨⟨'b', rfl, by decide, by decide⟩, by decide⟩

theorem goodChunk_blurUser (q : ℚ) :
    GoodChunk ("blur(".data ++ numToStr q ++ "px)".data) :=
  ⟨⟨'b', rfl, by decide, by decide⟩, by
    rw [List.getLast?_append_of_ne_nil _ (by decide)]
    decide⟩

theorem joinSpace_head? (s : JSString) (l : List JSString) (hs : s ≠ []) :
    (joinSpace (s :: l)).head? = s.head? := by
  cases l with
  | nil => rfl
  | cons f r =>
    cases s with
    | nil => exact absurd rfl hs
    | cons a t => rfl

theorem joinSpace_getLast? (l : List JSString)
    (h : ∀ e ∈ l, e.getLast? = some ')') (hne : l ≠ []) :
    (joinSpace l).getLast? = some ')' := by
  induction l with
  | nil => exact absurd rfl hne
  | cons s rest ih =>
    cases rest with
    | nil => exact h s (List.mem_cons_self s [])
    | cons f r =>
      have hrec : (joinSpace (f :: r)).getLast? = some ')' :=
        ih (fun e he => h e (List.mem_cons_of_mem s he)) (by simp)
      have hstep : joinSpace (s :: f :: r) = s ++ ' ' :: joinSpace (f :: r) := rfl
      rw [hstep, List.getLast?_append_of_ne_nil _ (by simp)]
      cases hq : joinSpace (f :: r) with
      | nil => rw [hq] at hrec; simp at hrec
      | cons b u =>
        rw [hq] at hrec
        rw [List.getLast?_cons_cons]
        exact hrec

theorem FILTER_DEFINITIONS_eq_nil_iff (ft : FilterType) :
    FILTER_DEFINITIONS ft = [] ↔ ft = FilterType.none := by
  cases ft <;> decide

/-- The accumulated `filters` array is empty exactly under the claim's
conditions. -/
theorem buildFilterList_eq_nil_iff (s : FilterSettings) (m : BlurMode) :
    buildFilterList s m = [] ↔
      (s.hue = 0 ∧ s.filter = FilterType.none ∧ s.blur ≤ 0 ∧ m ≠ BlurMode.full) := by
  rw [buildFilterList]
  constructor
  · intro h
    rw [List.append_eq_nil, List.append_eq_nil] at h
    have ha := h.1.1
    have hb := h.1.2
    have hc := h.2
    have h1 : s.hue = 0 := by
      by_contra hh
      rw [if_pos hh] at ha
      exact List.cons_ne_nil _ _ ha
    have h2 : s.filter = FilterType.none := by
      by_contra hh
      rw [if_pos ((not_congr (FILTER_DEFINITIONS_eq_nil_iff s.filter)).mpr hh)] at hb
      exact List.cons_ne_nil _ _ hb
    have h3 : m ≠ BlurMode.full := by
      intro hh
      subst hh
      rw [if_pos rfl] at hc
      exact List.cons_ne_nil _ _ hc
    have h4 : s.blur ≤ 0 := by
      by_contra hh
      push_neg at hh
      rw [if_neg h3, if_pos hh] at hc
      exact List.cons_ne_nil _ _ hc
    exact ⟨h1, h2, h4, h3⟩
  · rintro ⟨h1, h2, h3, h4⟩
    rw [if_neg (fun hh => hh h1),
      if_neg (fun hh => hh ((FILTER_DEFINITIONS_eq_nil_iff s.filter).mpr h2)),
      if_neg h4, if_neg (not_lt.mpr h3)]
    rfl

/-- Every element of the `filters` array is a well-behaved chunk. -/
theorem buildFilterList_good (s : FilterSettings) (m : BlurMode) :
    ∀ x ∈ buildFilterList s m, GoodChunk x := by
  intro x hx
  rw [buildFilterList] at hx
  simp only [List.mem_append] at hx
  rcases hx with (hx | hx) | hx
  · split at hx
    · simp only [List.mem_singleton] at hx
      subst hx
      exact goodChunk_hue s.hue
    · simp at hx
  · split at hx
    · next h2 =>
      simp only [List.mem_singleton] at hx
      subst hx
      exact goodChunk_filterDef s.filter h2
    · simp at hx
  · split at hx
    · simp only [List.mem_singleton] at hx
      subst hx
      exact goodChunk_blurFull
    · split at hx
      · simp only [List.mem_singleton] at hx
        subst hx
        exact goodChunk_blurUser s.blur
      · simp at hx

/-- C7: `buildFilter` is deterministic (two calls with identical settings and
blur mode yield the identical string) and returns the literal string "none"
exactly when hue = 0, filter = 'none', blur ≤ 0 and the blur mode is not
'full'. -/
theorem buildFilter_deterministic_none_iff (s : FilterSettings) (m : BlurMode) :
    buildFilter s m = buildFilter s m ∧
    (buildFilter s m = "none".data ↔
      (s.hue = 0 ∧ s.filter = FilterType.none ∧ s.blur ≤ 0 ∧ m ≠ BlurMode.full)) := by
  refine ⟨rfl, ?_⟩
  by_cases hnil : buildFilterList s m = []
  · have : buildFilter s m = "none".data := by
      rw [buildFilter, hnil]
      rfl
    rw [this]
    exact iff_of_true rfl ((buildFilterList_eq_nil_iff s m).mp hnil)
  · obtain ⟨e, rest, hl⟩ : ∃ e rest, buildFilterList s m = e :: rest := by
      cases hq : buildFilterList s m with
      | nil => exact absurd hq hnil
      | cons e rest => exact ⟨e, rest, rfl⟩
    have hgood := buildFilterList_good s m
    obtain ⟨⟨c, hc1, hc2, hc3⟩, -⟩ := hgood e (hl ▸ List.mem_cons_self e rest)
    have he : e ≠ [] := by
      intro h
      rw [h] at hc1
      simp at hc1
    have hj1 : (joinSpace (e :: rest)).head? = some c := by
      rw [joinSpace_head? _ _ he]
      exact hc1
    have hj2 : (joinSpace (e :: rest)).getLast? = some ')' :=
      joinSpace_getLast? _ (fun x hx => (hgood x (hl ▸ hx)).2) (by simp)
    have htrim : jsTrim (joinSpace (e :: rest)) = joinSpace (e :: rest) :=
      jsTrim_eq_self hj1 hc3 hj2 (by decide)
    have hne : joinSpace (e :: rest) ≠ [] := by
      intro h
      rw [h] at hj1
      simp at hj1
    have hbf : buildFilter s m = joinSpace (e :: rest) := by
      rw [buildFilter, hl, htrim, if_neg hne]
    rw [hbf]
    refine iff_of_false ?_ ?_
    · intro h
      rw [h] at hj1
      have : c = 'n' := by
        have : some 'n' = some c := hj1
        injection this with h'
        exact h'.symm
      exact hc2 this
    · rintro ⟨k1, k2, k3, k4⟩
      exact hnil ((buildFilterList_eq_nil_iff s m).mpr ⟨k1, k2, k3, k4⟩)

/-! ## Face-tracking controller: geometryUtils (`src/unnamed/part_004`,
lines 194–281), mirrored inline by `renderFrame` in
`src/components/VideoPanel.tsx` (lines 380–406) with identical constants. -/

/-- Embedding of `smoothValue` (lines 194–200): one-pole exponential
smoothing. -/
def smoothValue (current target smoothingFactor : ℚ) : ℚ :=
  current + (target - current) * smoothingFactor

/-- Embedding of `clamp` (lines 205–207). -/
def clamp (value lo hi : ℚ) : ℚ := max lo (min hi value)

/-- Face bounding box as returned by the detector service. -/
structure FaceBox where
  originX : ℚ
  originY : ℚ
  width : ℚ
  height : ℚ
  deriving Repr, DecidableEq

/-- The pan/tilt/zoom slice of CameraSettings consumed and produced by the
tracking controller (also the shape of FaceTrackingAdjustment). -/
structure PTZ where
  pan : ℚ
  tilt : ℚ
  zoom : ℚ
  deriving Repr, DecidableEq

/-- The FaceTrackingConfig record of geometryUtils (lines 218–224). -/
structure FaceTrackingConfig where
  smoothingFactor : ℚ
  targetFaceHeightRatio : ℚ
  panTiltSensitivity : ℚ
  minZoom : ℚ
  maxZoom : ℚ
  deriving Repr, DecidableEq

/-- The DEFAULT_FACE_TRACKING_CONFIG constant (lines 226–232); 0.08 and 0.4
are exact. -/
def DEFAULT_FACE_TRACKING_CONFIG : FaceTrackingConfig :=
  { smoothingFactor := 8 / 100
    targetFaceHeightRatio := 4 / 10
    panTiltSensitivity := 4 / 10
    minZoom := 100
    maxZoom := 400 }

/-- A hardware zoom capability range. -/
structure ZoomRange where
  min : ℚ
  max : ℚ
  deriving Repr, DecidableEq

/-- Embedding of `calculateFaceTrackingAdjustment` (lines 237–281). The
source first computes the software target zoom, overwrites it on the hardware
path, then derives the pan and tilt targets and smooths all three. -/
def calculateFaceTrackingAdjustment (faceBoundingBox : FaceBox)
    (videoWidth videoHeight : ℚ) (currentSettings : PTZ)
    (config : FaceTrackingConfig) (hardwareZoomRange : Option ZoomRange) : PTZ :=
  let targetHeight := videoHeight * config.targetFaceHeightRatio
  let heightError := targetHeight - faceBoundingBox.height
  let targetZoom :=
    match hardwareZoomRange with
    | some range =>
        clamp (currentSettings.zoom / 100 + heightError * (5 / 1000))
          range.min range.max * 100
    | none =>
        clamp (currentSettings.zoom + heightError * (1 / 10))
          config.minZoom config.maxZoom
  let faceCenterX := faceBoundingBox.originX + faceBoundingBox.width / 2
  let errorX := faceCenterX - videoWidth / 2
  let targetPan :=
    clamp (currentSettings.pan - errorX / videoWidth * 180 * config.panTiltSensitivity)
      (-180) 180
  let faceCenterY := faceBoundingBox.originY + faceBoundingBox.height / 2
  let errorY := faceCenterY - videoHeight / 2
  let targetTilt :=
    clamp (currentSettings.tilt + errorY / videoHeight * 90 * config.panTiltSensitivity)
      (-90) 90
  { pan := smoothValue currentSettings.pan targetPan config.smoothingFactor
    tilt := smoothValue currentSettings.tilt targetTilt config.smoothingFactor
    zoom := smoothValue currentSettings.zoom targetZoom config.smoothingFactor }

/-- N successive tracking ticks with a fixed detected bounding box: each tick
feeds the smoothed output back as the current settings, exactly as
`renderFrame` does through `onSettingsChange`. -/
def trackTicks (box : FaceBox) (videoWidth videoHeight : ℚ) (s : PTZ) : Nat → PTZ
  | 0 => s
  | n + 1 =>
      calculateFaceTrackingAdjustment box videoWidth videoHeight
        (trackTicks box videoWidth videoHeight s n) DEFAULT_FACE_TRACKING_CONFIG none

/-- C2 counterexample: the controller recomputes its target from the current
value every tick, so with a fixed bounding box the smoothed pan drifts
linearly and crosses the single-tick target instead of converging to it.
Video 1000×1000, box origin (700, 300), size 100×400, initial pan 0 / tilt 0 /
zoom 200: the single-tick pan target is −18; one tick moves pan by
−36/25 = −1.44, after 13 ticks pan = −468/25 = −18.72 < −18 (overshoot), and
tick 14 moves it strictly further from −18 (no monotone approach, no
geometric convergence to the single-tick target). -/
theorem faceTracking_overshoots_single_tick_target :
    clamp (0 - (700 + 100 / 2 - 1000 / 2) / 1000 * 180 * (4 / 10)) (-180) 180
        = -18 ∧
    (trackTicks ⟨700, 300, 100, 400⟩ 1000 1000 ⟨0, 0, 200⟩ 1).pan = -36 / 25 ∧
    (trackTicks ⟨700, 300, 100, 400⟩ 1000 1000 ⟨0, 0, 200⟩ 13).pan = -468 / 25 ∧
    (-468 / 25 : ℚ) < -18 ∧
    (trackTicks ⟨700, 300, 100, 400⟩ 1000 1000 ⟨0, 0, 200⟩ 14).pan = -504 / 25 ∧
    |(-504 / 25 : ℚ) - (-18)| > |(-468 / 25 : ℚ) - (-18)| := by
  refine ⟨?_, ?_, ?_, by norm_num, ?_, ?_⟩ <;>
    norm_num [trackTicks, calculateFaceTrackingAdjustment, smoothValue, clamp,
      DEFAULT_FACE_TRACKING_CONFIG, abs]

/-- Iterated one-pole smoothing toward a fixed target with the default
smoothing factor. -/
def smoothIter (x0 target : ℚ) : Nat → ℚ
  | 0 => x0
  | n + 1 =>
      smoothValue (smoothIter x0 target n) target
        DEFAULT_FACE_TRACKING_CONFIG.smoothingFactor

/-- C2 amended: the geometric-decay, monotone, no-overshoot convergence holds
for the one-pole smoother when the target itself is held fixed across ticks
(with a fixed bounding box the code's target drifts with the current value,
see the counterexample): the distance to the target decays exactly by factor
1 − 0.08 per tick, is monotonically non-increasing, and the iterate never
crosses the target from either side. -/
theorem smoothValue_fixed_target_convergence (x0 target : ℚ) (n : Nat) :
    smoothIter x0 target n - target = (1 - 8 / 100) ^ n * (x0 - target) ∧
    |smoothIter x0 target (n + 1) - target| ≤ |smoothIter x0 target n - target| ∧
    (x0 ≤ target → smoothIter x0 target n ≤ target) ∧
    (target ≤ x0 → target ≤ smoothIter x0 target n) := by
  have key : ∀ m, smoothIter x0 target m - target
      = (1 - 8 / 100 : ℚ) ^ m * (x0 - target) := by
    intro m
    induction m with
    | zero => simp [smoothIter]
    | succ k ih =>
      have hstep : smoothIter x0 target (k + 1) - target
          = (smoothIter x0 target k - target) * (1 - 8 / 100) := by
        show smoothValue (smoothIter x0 target k) target
            DEFAULT_FACE_TRACKING_CONFIG.smoothingFactor - target = _
        rw [smoothValue]
        show smoothIter x0 target k +
            (target - smoothIter x0 target k) * (8 / 100) - target = _
        ring
      rw [hstep, ih, pow_succ]
      ring
  have hpow : ∀ m : Nat, (0 : ℚ) ≤ (1 - 8 / 100 : ℚ) ^ m := fun m =>
    pow_nonneg (by norm_num) m
  refine ⟨key n, ?_, ?_, ?_⟩
  · rw [key n, key (n + 1), abs_mul, abs_mul]
    have h1 : |(1 - 8 / 100 : ℚ) ^ (n + 1)| = (1 - 8 / 100 : ℚ) ^ (n + 1) :=
      abs_of_nonneg (hpow (n + 1))
    have h2 : |(1 - 8 / 100 : ℚ) ^ n| = (1 - 8 / 100 : ℚ) ^ n :=
      abs_of_nonneg (hpow n)
    rw [h1, h2]
    have hle : (1 - 8 / 100 : ℚ) ^ (n + 1) ≤ (1 - 8 / 100 : ℚ) ^ n :=
      pow_le_pow_of_le_one (by norm_num) (by norm_num) (Nat.le_succ n)
    exact mul_le_mul_of_nonneg_right hle (abs_nonneg _)
  · intro hx
    have := key n
    nlinarith [hpow n, mul_nonneg (hpow n) (sub_nonneg.mpr hx)]
  · intro hx
    have := key n
    nlinarith [hpow n, mul_nonneg (hpow n) (sub_nonneg.mpr hx)]

/-- Witness for the amended C2 theorem at x0 = 0, target = 25, one tick. -/
theorem smoothValue_fixed_target_convergence_witness :
    smoothIter 0 25 1 - 25 = (1 - 8 / 100) ^ 1 * (0 - 25) ∧
    (0 : ℚ) ≤ 25 ∧ smoothIter 0 25 1 ≤ 25 := by
  obtain ⟨h1, -, h3, -⟩ := smoothValue_fixed_target_convergence 0 25 1
  exact ⟨h1, by norm_num, h3 (by norm_num)⟩

/-! ## Geometric transform application: `applyTransforms` (geometryUtils,
`src/unnamed/part_004`, lines 146–175).

The canvas rendering context is modelled by the log of transform operations
issued on it; `ctx.translate`, `ctx.scale`, `ctx.rotate` append one operation
each. Translate and scale arguments are rationals; the rotation operation
records the real radian value passed to `ctx.rotate`. -/

/-- One transform call on a canvas context. The argument of `rotate` is the
radian angle passed to `ctx.rotate`, recorded as its rational coefficient of
π (the source always passes `degrees * Math.PI / 180`, i.e. coefficient
`degrees / 180`); this representation is exact and keeps the model
executable. -/
inductive CanvasOp where
  | translate (x y : ℚ)
  | scaleBy (x y : ℚ)
  | rotate (piCoefficient : ℚ)
  deriving Repr, DecidableEq

/-- The TransformParams record of geometryUtils (lines 133–140). -/
structure TransformParams where
  rotation : ℚ
  zoom : ℚ
  pan : ℚ
  tilt : ℚ
  mirrorH : Bool
  mirrorV : Bool

/-- Embedding of `applyTransforms` (lines 146–175) as the operation log it
appends to the context. -/
def applyTransforms (ops : List CanvasOp)
    (canvasWidth canvasHeight drawWidth drawHeight : ℚ)
    (params : TransformParams) (isHardwareZoom : Bool) : List CanvasOp :=
  -- Move origin to center
  let ops := ops ++ [CanvasOp.translate (canvasWidth / 2) (canvasHeight / 2)]
  -- Apply mirroring
  let ops := ops ++ [CanvasOp.scaleBy (if params.mirrorH then -1 else 1)
      (if params.mirrorV then -1 else 1)]
  -- Apply rotation: `params.rotation * Math.PI / 180`, i.e. π-coefficient
  -- `params.rotation / 180`
  let ops := ops ++ [CanvasOp.rotate (params.rotation / 180)]
  -- Apply software zoom with pan/tilt
  let ops :=
    if !isHardwareZoom && params.zoom > 100 then
      let zoomScale := params.zoom / 100
      let panX := params.pan / 180 * (drawWidth / zoomScale)
      let tiltY := params.tilt / 90 * (drawHeight / zoomScale)
      ops ++ [CanvasOp.scaleBy zoomScale zoomScale, CanvasOp.translate (-panX) tiltY]
    else ops
  -- Move origin back
  ops ++ [CanvasOp.translate (-(canvasWidth / 2)) (-(canvasHeight / 2))]

/-- C8: `applyTransforms` issues exactly the sequence translate-to-center,
mirror scale, rotate by rotation·π/180, then — precisely when software zoom is
in effect (`isHardwareZoom = false` and `zoom > 100`) — the zoom scale and the
pan/tilt translate scaled by draw size over zoom scale, then
translate-back. When `isHardwareZoom = true` no zoom/pan/tilt operation is
issued regardless of the zoom value. -/
theorem applyTransforms_sequence (ops : List CanvasOp)
    (cw ch dw dh : ℚ) (params : TransformParams) (isHardwareZoom : Bool) :
    applyTransforms ops cw ch dw dh params isHardwareZoom =
      ops ++
      [CanvasOp.translate (cw / 2) (ch / 2),
       CanvasOp.scaleBy (if params.mirrorH then -1 else 1)
         (if params.mirrorV then -1 else 1),
       CanvasOp.rotate (params.rotation / 180)] ++
      (if isHardwareZoom = false ∧ params.zoom > 100 then
        [CanvasOp.scaleBy (params.zoom / 100) (params.zoom / 100),
         CanvasOp.translate (-(params.pan / 180 * (dw / (params.zoom / 100))))
           (params.tilt / 90 * (dh / (params.zoom / 100)))]
      else []) ++
      [CanvasOp.translate (-(cw / 2)) (-(ch / 2))] := by
  cases isHardwareZoom with
  | false =>
    by_cases hz : params.zoom > 100 <;>
      simp [applyTransforms, hz, List.append_assoc]
  | true => simp [applyTransforms, List.append_assoc]

/-! ## Settings reconciliation engine: `src/hooks/useCameraSettings.ts`,
with `getConstraintName` from `useWebcam` and DEFAULT_SETTINGS from
`src/constants.ts`. The React state (`Map<string, CameraSettings>` plus the
`applyingRef` guard) is modelled by explicit state passing. -/

/-- The keys of CameraSettings, in the declaration order of DEFAULT_SETTINGS
(`src/constants.ts`), which is the `Object.keys` iteration order. -/
inductive Control where
  | brightness | contrast | saturation | sharpness | hue | gamma
  | exposureMode | exposureCompensation | whiteBalanceMode
  | whiteBalanceTemperature | focusMode | iso | zoom | pan | tilt
  | filter | rotation | mirrorH | mirrorV | blur | faceSmoothing
  | portraitLighting
  deriving Repr, DecidableEq

/-- A CameraSettings field value: a JS number, string or boolean. -/
inductive SettingValue where
  | num (q : ℚ)
  | str (s : String)
  | bool (b : Bool)
  deriving Repr, DecidableEq

/-- A full CameraSettings record. -/
abbrev CameraSettings := Control → SettingValue

/-- The DEFAULT_SETTINGS constant of `src/constants.ts`. -/
def DEFAULT_SETTINGS : CameraSettings
  | .brightness => .num 128
  | .contrast => .num 128
  | .saturation => .num 128
  | .sharpness => .num 128
  | .hue => .num 0
  | .gamma => .num 100
  | .exposureMode => .str "continuous"
  | .exposureCompensation => .num 0
  | .whiteBalanceMode => .str "continuous"
  | .whiteBalanceTemperature => .num 4600
  | .focusMode => .str "continuous"
  | .iso => .num 400
  | .zoom => .num 100
  | .pan => .num 0
  | .tilt => .num 0
  | .filter => .str "none"
  | .rotation => .num 0
  | .mirrorH => .bool false
  | .mirrorV => .bool false
  | .blur => .num 0
  | .faceSmoothing => .num 0
  | .portraitLighting => .num 0

/-- The control list iterated by the apply loop: `Object.keys(settings)`. -/
def allControls : List Control :=
  [.brightness, .contrast, .saturation, .sharpness, .hue, .gamma,
   .exposureMode, .exposureCompensation, .whiteBalanceMode,
   .whiteBalanceTemperature, .focusMode, .iso, .zoom, .pan, .tilt,
   .filter, .rotation, .mirrorH, .mirrorV, .blur, .faceSmoothing,
   .portraitLighting]

/-- Embedding of `getConstraintName` (`useWebcam`, lines 235–252): the fixed
control-name → hardware-constraint-name mapping; controls absent from the
table are software-only. -/
def getConstraintName : Control → Option String
  | .brightness => some "brightness"
  | .contrast => some "contrast"
  | .saturation => some "saturation"
  | .sharpness => some "sharpness"
  | .whiteBalanceTemperature => some "colorTemperature"
  | .exposureCompensation => some "exposureCompensation"
  | .iso => some "iso"
  | .zoom => some "zoom"
  | .pan => some "pan"
  | .tilt => some "tilt"
  | .exposureMode => some "exposureMode"
  | .whiteBalanceMode => some "whiteBalanceMode"
  | .focusMode => some "focusMode"
  | _ => none

/-- A MediaSettingsRange capability entry. -/
structure MediaSettingsRange where
  min : ℚ
  max : ℚ
  step : ℚ
  deriving Repr, DecidableEq

/-- One entry of the capability map: a numeric range object (has `min`) or a
string-enum array. -/
inductive Capability where
  | range (r : MediaSettingsRange)
  | modes (values : List String)
  deriving Repr, DecidableEq

/-- The per-device capability map, keyed by hardware constraint name; `none`
models a name absent from the capabilities object. -/
abbrev Capabilities := String → Option Capability

/-- Embedding of `clampToRange` (`useCameraSettings.ts`, lines 48–51). -/
def clampToRange (value : ℚ) (range : Option MediaSettingsRange) : ℚ :=
  match range with
  | none => value
  | some r => max r.min (min r.max value)

/-- Per-control body of the `applySettings` loop (lines 98–142): the staged
`changedSettings` correction (if any) and the `applyHardwareConstraint` call
issued (if any). Missing constraint name or capability skips the control; an
enum value absent from the allowed list is logged and skipped without staging
anything; otherwise the (possibly clamped) value is applied. -/
def processControl (caps : Capabilities) (settings : CameraSettings)
    (control : Control) :
    Option (Control × SettingValue) × Option (Control × SettingValue) :=
  match getConstraintName control with
  | none => (none, none)
  | some constraintName =>
    match caps constraintName with
    | none => (none, none)
    | some capability =>
      match settings control, capability with
      | .num v, .range r =>
          -- Zoom is a special case: UI is 100-400, hardware is another range
          let valueToClamp := if control = Control.zoom then v / 100 else v
          let clampedValue := clampToRange valueToClamp (some r)
          let finalUIValue :=
            if control = Control.zoom then clampedValue * 100 else clampedValue
          let staged :=
            if |finalUIValue - v| > 1 / 100 then
              some (control, SettingValue.num finalUIValue)
            else none
          (staged, some (control, SettingValue.num clampedValue))
      | .str s, .modes values =>
          if s ∈ values then (none, some (control, SettingValue.str s))
          else (none, none)
      | v, _ => (none, some (control, v))

/-- The full `applySettings` loop over all controls in iteration order,
reading the settings snapshot captured at pass start: the list of staged
corrections and the list of hardware calls. -/
def runApplyPass (caps : Capabilities) (settings : CameraSettings) :
    List (Control × SettingValue) × List (Control × SettingValue) :=
  (allControls.filterMap fun c => (processControl caps settings c).1,
   allControls.filterMap fun c => (processControl caps settings c).2)

/-- The settings-by-camera store (`Map<string, CameraSettings>`). -/
abbrev SettingsStore := String → Option CameraSettings

/-- One `next.set(id, s)` on a copy of the map. -/
def storeSet (store : SettingsStore) (id : String) (s : CameraSettings) :
    SettingsStore :=
  fun d => if d = id then some s else store d

/-- JS object spread `{ ...current, ...changes }`. A pass stages at most one
correction per control, so keys are pairwise distinct and first-match lookup
agrees with the JS last-wins rule. -/
def mergeChanges (current : CameraSettings)
    (changes : List (Control × SettingValue)) : CameraSettings :=
  fun c =>
    match changes.find? (fun kv => kv.1 = c) with
    | some kv => kv.2
    | none => current c

/-- Outcome of one reconciliation pass: the store afterwards, the hardware
calls issued, and how many `setSettingsByCamera` batch updates were made. -/
structure PassOutcome where
  store : SettingsStore
  hwCalls : List (Control × SettingValue)
  batchedUpdates : Nat

/-- Embedding of one full `applySettings` pass (lines 92–155): read the
current device's settings (falling back to defaults), process every control,
then — only when at least one correction was staged — issue a single batched
store update merging all staged corrections at once. -/
def applySettingsPass (caps : Capabilities) (currentCameraId : String)
    (store : SettingsStore) : PassOutcome :=
  let settings := (store currentCameraId).getD DEFAULT_SETTINGS
  let result := runApplyPass caps settings
  if result.1 ≠ [] then
    { store := storeSet store currentCameraId (mergeChanges settings result.1)
      hwCalls := result.2
      batchedUpdates := 1 }
  else
    { store := store, hwCalls := result.2, batchedUpdates := 0 }

/-- Embedding of `updateSettings` (lines 160–172): no-op when no current
camera, else merge the partial update into that camera's entry. -/
def updateSettings (currentCameraId : Option String) (store : SettingsStore)
    (newSettings : List (Control × SettingValue)) : SettingsStore :=
  match currentCameraId with
  | none => store
  | some id =>
      storeSet store id (mergeChanges ((store id).getD DEFAULT_SETTINGS) newSettings)

/-- Embedding of `resetAllSettings` (lines 174–182). -/
def resetAllSettings (currentCameraId : Option String)
    (store : SettingsStore) : SettingsStore :=
  match currentCameraId with
  | none => store
  | some id => storeSet store id DEFAULT_SETTINGS

/-- The SettingsSection union (line 33). -/
inductive SettingsSection where
  | exposure | color | focus | gain | ptz | effects | all
  deriving Repr, DecidableEq

/-- The SECTION_KEYS table (lines 35–43). -/
def SECTION_KEYS : SettingsSection → List Control
  | .exposure => [.brightness, .contrast, .gamma, .exposureMode, .exposureCompensation]
  | .color => [.saturation, .hue, .whiteBalanceMode, .whiteBalanceTemperature]
  | .focus => [.focusMode, .sharpness]
  | .gain => [.iso]
  | .ptz => [.zoom, .pan, .tilt]
  | .effects => [.filter, .rotation, .blur, .faceSmoothing, .portraitLighting,
      .mirrorH, .mirrorV]
  | .all => allControls

/-- Embedding of `resetSection` (lines 184–204). -/
def resetSection (currentCameraId : Option String) (store : SettingsStore)
    (sec : SettingsSection) : SettingsStore :=
  match currentCameraId with
  | none => store
  | some id =>
      storeSet store id (mergeChanges ((store id).getD DEFAULT_SETTINGS)
        ((SECTION_KEYS sec).map fun k => (k, DEFAULT_SETTINGS k)))

/-- Every control is iterated by the apply loop. -/
theorem mem_allControls (c : Control) : c ∈ allControls := by
  cases c <;> simp [allControls]

/-- The iterated control list has no duplicates. -/
theorem allControls_nodup : allControls.Nodup := by
  decide

/-- A staged correction is keyed by the control that staged it. -/
theorem processControl_staged_key (caps : Capabilities) (s : CameraSettings)
    (c : Control) (p : Control × SettingValue)
    (h : (processControl caps s c).1 = some p) : p.1 = c := by
  cases hgc : getConstraintName c with
  | none => simp [processControl, hgc] at h
  | some name =>
    cases hcap : caps name with
    | none => simp [processControl, hgc, hcap] at h
    | some capability =>
      cases hv : s c with
      | num v =>
        cases capability with
        | range r =>
          simp only [processControl, hgc, hcap, hv, Option.ite_none_right_eq_some,
            Option.some.injEq] at h
          rw [← h.2]
        | modes xs => simp [processControl, hgc, hcap, hv] at h
      | str t =>
        cases capability with
        | range r => simp [processControl, hgc, hcap, hv] at h
        | modes xs =>
          simp only [processControl, hgc, hcap, hv] at h
          split at h <;> simp at h
      | bool b => simp [processControl, hgc, hcap, hv] at h

/-- A hardware call is keyed by the control that issued it. -/
theorem processControl_hw_key (caps : Capabilities) (s : CameraSettings)
    (c : Control) (p : Control × SettingValue)
    (h : (processControl caps s c).2 = some p) : p.1 = c := by
  cases hgc : getConstraintName c with
  | none => simp [processControl, hgc] at h
  | some name =>
    cases hcap : caps name with
    | none => simp [processControl, hgc, hcap] at h
    | some capability =>
      cases hv : s c with
      | num v =>
        cases capability with
        | range r =>
          simp only [processControl, hgc, hcap, hv, Option.some.injEq] at h
          rw [← h]
        | modes xs =>
          simp only [processControl, hgc, hcap, hv, Option.some.injEq] at h
          rw [← h]
      | str t =>
        cases capability with
        | range r =>
          simp only [processControl, hgc, hcap, hv, Option.some.injEq] at h
          rw [← h]
        | modes xs =>
          simp only [processControl, hgc, hcap, hv] at h
          split at h
          · simp at h
            rw [← h]
          · simp at h
      | bool b =>
        simp only [processControl, hgc, hcap, hv, Option.some.injEq] at h
        rw [← h]

/-- Looking up a control's entry in the accumulated correction list: with
pairwise-distinct iterated controls and entries keyed by their control, the
first match is exactly that control's own staged entry. -/
theorem find?_filterMap_key (g : Control → Option (Control × SettingValue))
    (hg : ∀ c p, g c = some p → p.1 = c)
    (l : List Control) (hnd : l.Nodup) (c : Control) (hc : c ∈ l)
    (p : Control × SettingValue) (hp : g c = some p) :
    (l.filterMap g).find? (fun kv => kv.1 = c) = some p := by
  induction l with
  | nil => cases hc
  | cons a t ih =>
    rcases List.mem_cons.mp hc with rfl | hct
    · simp only [List.filterMap_cons, hp]
      exact List.find?_cons_of_pos _ (by simp [hg c p hp])
    · have hne : a ≠ c := fun h => (List.nodup_cons.mp hnd).1 (h ▸ hct)
      have htail := ih (List.nodup_cons.mp hnd).2 hct
      cases hga : g a with
      | none => simpa only [List.filterMap_cons, hga] using htail
      | some q =>
        have hq : q.1 = a := hg a q hga
        simp only [List.filterMap_cons, hga]
        rw [List.find?_cons_of_neg _ (by simp [hq, hne])]
        exact htail

/-- No entry in the accumulated lists is keyed by a control whose step
produced nothing. -/
theorem filterMap_keys_ne (g : Control → Option (Control × SettingValue))
    (hg : ∀ c p, g c = some p → p.1 = c)
    (c : Control) (hgc : g c = none) (l : List Control) :
    ∀ p ∈ l.filterMap g, p.1 ≠ c := by
  intro p hp hcontra
  obtain ⟨a, -, hga⟩ := List.mem_filterMap.mp hp
  have ha : a = c := by rw [← hg a p hga, hcontra]
  rw [ha, hgc] at hga
  cases hga

/-- Dropping a control whose step produces nothing does not change the
accumulated list: the loop continues over the remaining controls. -/
theorem filterMap_erase_none (g : Control → Option (Control × SettingValue))
    (c : Control) (hgc : g c = none) (l : List Control) :
    l.filterMap g = (l.filter (fun x => x ≠ c)).filterMap g := by
  induction l with
  | nil => rfl
  | cons a t ih =>
    by_cases h : a = c
    · subst h
      rw [List.filter_cons_of_neg (by simp)]
      simp only [List.filterMap_cons, hgc]
      exact ih
    · rw [List.filter_cons_of_pos (by simpa using h)]
      cases hga : g a <;> simp only [List.filterMap_cons, hga] <;> rw [ih]

/-- When the clamped UI value is more than 0.01 away from the requested one,
the loop stages exactly that control's corrected value. -/
theorem processControl_staged_of_far (caps : Capabilities) (s : CameraSettings)
    (c : Control) (cname : String) (r : MediaSettingsRange) (v : ℚ)
    (hname : getConstraintName c = some cname)
    (hcap : caps cname = some (Capability.range r))
    (hval : s c = SettingValue.num v)
    (hfar : |(if c = Control.zoom then clampToRange (v / 100) (some r) * 100
        else clampToRange v (some r)) - v| > 1 / 100) :
    (processControl caps s c).1 =
      some (c, SettingValue.num (if c = Control.zoom then
        clampToRange (v / 100) (some r) * 100 else clampToRange v (some r))) := by
  by_cases hz : c = Control.zoom
  · subst hz
    rw [if_pos rfl] at hfar
    rw [gt_iff_lt, one_div] at hfar
    simp [processControl, hname, hcap, hval, hfar]
  · rw [if_neg hz] at hfar
    rw [gt_iff_lt, one_div] at hfar
    simp [processControl, hname, hcap, hval, hz, hfar]

/-- C3 (amended): for every numeric control whose capability range is
[min,max] and whose requested value is far enough outside it that the clamped
UI value differs by more than the 0.01 staging tolerance, one reconciliation
pass stores exactly the clamped value for that control, and all staged
corrections of the pass are merged in exactly one batched update. -/
theorem reconciliation_clamps_and_batches_once (caps : Capabilities)
    (d : String) (store : SettingsStore) (c : Control) (cname : String)
    (r : MediaSettingsRange) (v : ℚ)
    (hname : getConstraintName c = some cname)
    (hcap : caps cname = some (Capability.range r))
    (hval : ((store d).getD DEFAULT_SETTINGS) c = SettingValue.num v)
    (hfar : |(if c = Control.zoom then clampToRange (v / 100) (some r) * 100
        else clampToRange v (some r)) - v| > 1 / 100) :
    (applySettingsPass caps d store).batchedUpdates = 1 ∧
    ((applySettingsPass caps d store).store d).map (fun f => f c)
      = some (SettingValue.num (if c = Control.zoom then
          clampToRange (v / 100) (some r) * 100 else clampToRange v (some r))) := by
  have hstag := processControl_staged_of_far caps ((store d).getD DEFAULT_SETTINGS)
    c cname r v hname hcap hval hfar
  have hmem : (c, SettingValue.num (if c = Control.zoom then
      clampToRange (v / 100) (some r) * 100 else clampToRange v (some r)))
      ∈ (runApplyPass caps ((store d).getD DEFAULT_SETTINGS)).1 := by
    rw [runApplyPass]
    exact List.mem_filterMap.mpr ⟨c, mem_allControls c, hstag⟩
  have hne : (runApplyPass caps ((store d).getD DEFAULT_SETTINGS)).1 ≠ [] :=
    List.ne_nil_of_mem hmem
  have hfind : ((runApplyPass caps ((store d).getD DEFAULT_SETTINGS)).1).find?
      (fun kv => kv.1 = c)
      = some (c, SettingValue.num (if c = Control.zoom then
          clampToRange (v / 100) (some r) * 100 else clampToRange v (some r))) := by
    rw [runApplyPass]
    exact find?_filterMap_key _
      (fun c' p hp => processControl_staged_key caps _ c' p hp)
      allControls allControls_nodup c (mem_allControls c) _ hstag
  constructor
  · simp only [applySettingsPass]
    rw [if_pos hne]
  · simp only [applySettingsPass]
    rw [if_pos hne]
    simp [storeSet, mergeChanges, hfind]

/-- A control whose step stages no correction keeps its stored value across a
reconciliation pass (whether or not other controls were corrected). -/
theorem applySettingsPass_store_unchanged_of_unstaged (caps : Capabilities)
    (d : String) (store : SettingsStore) (c : Control)
    (h : (processControl caps ((store d).getD DEFAULT_SETTINGS) c).1 = none) :
    (((applySettingsPass caps d store).store d).getD DEFAULT_SETTINGS) c
      = ((store d).getD DEFAULT_SETTINGS) c := by
  by_cases hne : (runApplyPass caps ((store d).getD DEFAULT_SETTINGS)).1 = []
  · simp [applySettingsPass, hne]
  · simp only [applySettingsPass]
    rw [if_pos hne]
    have hkeys : ∀ p ∈ (runApplyPass caps ((store d).getD DEFAULT_SETTINGS)).1,
        p.1 ≠ c := by
      rw [runApplyPass]
      exact filterMap_keys_ne _
        (fun c' p hp => processControl_staged_key caps _ c' p hp) c h allControls
    have hfind : ((runApplyPass caps ((store d).getD DEFAULT_SETTINGS)).1).find?
        (fun kv => kv.1 = c) = none :=
      List.find?_eq_none.mpr (fun p hp => by simp [hkeys p hp])
    simp [storeSet, mergeChanges, hfind]

/-- C3 counterexample for the claim as stated: brightness capability range
[0,100], requested value 100.005 = 20001/200, which lies outside the range —
yet the clamp correction is within the 0.01 tolerance, so no correction is
staged and the stored value remains 100.005, not the clamped 100. -/
theorem reconciliation_tolerance_counterexample :
    (100 : ℚ) < 20001 / 200 ∧
    (((applySettingsPass
        (fun _ => some (Capability.range ⟨0, 100, 1⟩))
        "cam"
        (fun _ =>
          some (fun c => if c = Control.brightness then SettingValue.num (20001 / 200)
            else DEFAULT_SETTINGS c))).store "cam").getD DEFAULT_SETTINGS)
        Control.brightness
      = SettingValue.num (20001 / 200) ∧
    SettingValue.num (20001 / 200)
      ≠ SettingValue.num (clampToRange (20001 / 200) (some ⟨0, 100, 1⟩)) := by
  refine ⟨by norm_num, ?_, ?_⟩
  · rw [applySettingsPass_store_unchanged_of_unstaged]
    · norm_num
    · norm_num [processControl, getConstraintName, clampToRange, min_def, max_def,
        (show Control.brightness ≠ Control.zoom by decide)]
      intro h
      rw [abs_of_pos (by norm_num : (0:ℚ) < 1 / 200)] at h
      norm_num at h
  · norm_num [clampToRange]

/-- Witness for the amended C3: brightness 150 against range [0,100] is
corrected to the clamped value 100 in a single batched update. -/
theorem reconciliation_clamps_and_batches_once_witness :
    (applySettingsPass
        (fun n => if n = "brightness" then some (Capability.range ⟨0, 100, 1⟩) else none)
        "cam"
        (fun d => if d = "cam" then
          some (fun c => if c = Control.brightness then SettingValue.num 150
            else DEFAULT_SETTINGS c)
          else none)).batchedUpdates = 1 ∧
    ((applySettingsPass
        (fun n => if n = "brightness" then some (Capability.range ⟨0, 100, 1⟩) else none)
        "cam"
        (fun d => if d = "cam" then
          some (fun c => if c = Control.brightness then SettingValue.num 150
            else DEFAULT_SETTINGS c)
          else none)).store "cam").map (fun f => f Control.brightness)
      = some (SettingValue.num (if Control.brightness = Control.zoom then
          clampToRange (150 / 100) (some ⟨0, 100, 1⟩) * 100
          else clampToRange 150 (some ⟨0, 100, 1⟩))) :=
  reconciliation_clamps_and_batches_once _ "cam" _ Control.brightness "brightness"
    ⟨0, 100, 1⟩ 150 rfl (by norm_num) (by norm_num)
    (by rw [if_neg (by decide)]; norm_num [clampToRange])

/-- On a string-enum control whose value is not in the allowed list, the step
stages nothing and issues no hardware call. -/
theorem processControl_enum_rejected (caps : Capabilities) (s : CameraSettings)
    (c : Control) (cname : String) (values : List String) (v : String)
    (hname : getConstraintName c = some cname)
    (hcap : caps cname = some (Capability.modes values))
    (hval : s c = SettingValue.str v)
    (hmem : v ∉ values) :
    processControl caps s c = (none, none) := by
  simp [processControl, hname, hcap, hval, hmem]

/-- C4: for a string-enum control whose requested value is not in the
capability's allowed list, a reconciliation pass leaves the settings store
unchanged for that control, stages no correction, never issues the hardware
apply call for that control, and processes the remaining controls exactly as
if the rejected control were absent (and, the pass being a total function,
nothing is thrown). -/
theorem enum_rejection (caps : Capabilities) (d : String) (store : SettingsStore)
    (c : Control) (cname : String) (values : List String) (v : String)
    (hname : getConstraintName c = some cname)
    (hcap : caps cname = some (Capability.modes values))
    (hval : ((store d).getD DEFAULT_SETTINGS) c = SettingValue.str v)
    (hmem : v ∉ values) :
    (((applySettingsPass caps d store).store d).getD DEFAULT_SETTINGS) c
      = ((store d).getD DEFAULT_SETTINGS) c ∧
    (∀ p ∈ (runApplyPass caps ((store d).getD DEFAULT_SETTINGS)).1, p.1 ≠ c) ∧
    (∀ p ∈ (applySettingsPass caps d store).hwCalls, p.1 ≠ c) ∧
    (applySettingsPass caps d store).hwCalls
      = (allControls.filter (fun x => x ≠ c)).filterMap
          (fun x => (processControl caps ((store d).getD DEFAULT_SETTINGS) x).2) := by
  have hpc := processControl_enum_rejected caps ((store d).getD DEFAULT_SETTINGS)
    c cname values v hname hcap hval hmem
  have hstag : (processControl caps ((store d).getD DEFAULT_SETTINGS) c).1 = none := by
    rw [hpc]
  have hhw : (processControl caps ((store d).getD DEFAULT_SETTINGS) c).2 = none := by
    rw [hpc]
  have hcalls : (applySettingsPass caps d store).hwCalls
      = (runApplyPass caps ((store d).getD DEFAULT_SETTINGS)).2 := by
    by_cases hne : (runApplyPass caps ((store d).getD DEFAULT_SETTINGS)).1 = [] <;>
      simp [applySettingsPass, hne]
  refine ⟨applySettingsPass_store_unchanged_of_unstaged caps d store c hstag,
    ?_, ?_, ?_⟩
  · rw [runApplyPass]
    exact filterMap_keys_ne _
      (fun c' p hp => processControl_staged_key caps _ c' p hp) c hstag allControls
  · rw [hcalls, runApplyPass]
    exact filterMap_keys_ne _
      (fun c' p hp => processControl_hw_key caps _ c' p hp) c hhw allControls
  · rw [hcalls, runApplyPass]
    exact filterMap_erase_none
      (fun x => (processControl caps ((store d).getD DEFAULT_SETTINGS) x).2)
      c hhw allControls

/-- Witness for C4: a camera whose exposureMode capability allows only
continuous and manual, with requested mode "none": the stored value survives
the pass unchanged. -/
theorem enum_rejection_witness :
    (((applySettingsPass (fun _ => some (Capability.modes ["continuous", "manual"]))
        "cam"
        (fun _ => some (fun c => if c = Control.exposureMode then SettingValue.str "none"
          else DEFAULT_SETTINGS c))).store "cam").getD DEFAULT_SETTINGS)
        Control.exposureMode
      = SettingValue.str "none" := by
  have h := (enum_rejection (fun _ => some (Capability.modes ["continuous", "manual"]))
    "cam"
    (fun _ => some (fun c => if c = Control.exposureMode then SettingValue.str "none"
      else DEFAULT_SETTINGS c))
    Control.exposureMode "exposureMode" ["continuous", "manual"] "none"
    rfl rfl (by simp) (by decide)).1
  rw [h]
  simp

/-- C5: for a UI zoom value in [100,400] and any hardware range, the dual
conversion used by reconciliation — divide by 100, clamp to the hardware
range, multiply by 100 — equals clamping the UI value directly to the
hardware range scaled by 100. -/
theorem zoom_clamp_round_trip (z hmin hmax st : ℚ)
    (h1 : 100 ≤ z) (h2 : z ≤ 400) :
    clampToRange (z / 100) (some ⟨hmin, hmax, st⟩) * 100
      = clampToRange z (some ⟨hmin * 100, hmax * 100, st⟩) := by
  simp only [clampToRange]
  rw [max_mul_of_nonneg _ _ (by norm_num : (0:ℚ) ≤ 100),
    min_mul_of_nonneg _ _ (by norm_num : (0:ℚ) ≤ 100),
    div_mul_cancel₀ _ (by norm_num : (100:ℚ) ≠ 0)]

/-- Witness for C5 at the spec's own scenario: zoom 250 with hardware range
[1, 4]. -/
theorem zoom_clamp_round_trip_witness :
    clampToRange (250 / 100) (some ⟨1, 4, 1/10⟩) * 100
      = clampToRange 250 (some ⟨1 * 100, 4 * 100, 1/10⟩) :=
  zoom_clamp_round_trip 250 1 4 (1/10) (by norm_num) (by norm_num)

/-! ### Reentrancy guard (claim C6).

The guard is modelled as a transition system over the states of
`applyingRef` plus the number of passes currently executing. In the
single-threaded JS event loop the effect's guard check and the `applyingRef
= true` assignment at the top of `applySettings` run without interleaving, so
one `settingsChange` event models that whole synchronous prefix; the pass's
remainder (after its awaits) ends by clearing the flag, modelled by
`passComplete`. -/

/-- Guard flag plus the number of in-flight apply passes. -/
structure GuardState where
  applying : Bool
  inFlight : Nat
  deriving Repr, DecidableEq

/-- Events: the settings-change effect firing, and an in-flight pass
completing. -/
inductive GuardEvent where
  | settingsChange
  | passComplete
  deriving Repr, DecidableEq

/-- Transition function from the structure of `applySettings` (lines 89–158):
the effect early-returns while the flag is set (the concurrent caller skips,
nothing is queued); otherwise a pass starts and sets the flag; completion
clears it. -/
def guardStep (s : GuardState) : GuardEvent → GuardState
  | .settingsChange =>
      if s.applying then s
      else { applying := true, inFlight := s.inFlight + 1 }
  | .passComplete =>
      if s.inFlight = 0 then s
      else { applying := false, inFlight := s.inFlight - 1 }

/-- Run a sequence of events. -/
def guardRun (s : GuardState) : List GuardEvent → GuardState
  | [] => s
  | e :: es => guardRun (guardStep s e) es

/-- Initial state: flag clear, no pass in flight. -/
def guardInit : GuardState := { applying := false, inFlight := 0 }

/-- Guard invariant: at most one pass in flight, and the flag tracks it. -/
def GuardInv (s : GuardState) : Prop :=
  s.inFlight ≤ 1 ∧ (s.applying = true ↔ s.inFlight = 1)

/-- C6: from the initial state every event sequence keeps the invariant (so
two apply passes never overlap); a settings change arriving while the flag is
set leaves the state entirely unchanged (the caller skips rather than
queueing); and completing an in-flight pass clears the flag. -/
theorem applySettings_reentrancy_guard :
    (∀ events : List GuardEvent, GuardInv (guardRun guardInit events)) ∧
    (∀ s : GuardState, s.applying = true →
      guardStep s GuardEvent.settingsChange = s) ∧
    (∀ s : GuardState, s.inFlight ≠ 0 →
      (guardStep s GuardEvent.passComplete).applying = false) := by
  have step : ∀ s e, GuardInv s → GuardInv (guardStep s e) := by
    intro s e hs
    obtain ⟨h1, h2⟩ := hs
    cases e with
    | settingsChange =>
      by_cases h : s.applying
      · simpa [guardStep, h] using ⟨h1, h2⟩
      · have hz : s.inFlight = 0 := by
          have : s.inFlight ≠ 1 := fun hf =>
            (Bool.eq_false_iff.mp (Bool.not_eq_true _ ▸ eq_false_of_ne_true h)) (h2.mpr hf)
          omega
        simp [guardStep, h, GuardInv, hz]
    | passComplete =>
      by_cases h : s.inFlight = 0
      · simpa [guardStep, h] using ⟨h1, h2⟩
      · simp only [guardStep, if_neg h, GuardInv]
        constructor
        · omega
        · simp
          omega
  refine ⟨?_, ?_, ?_⟩
  · intro events
    have run : ∀ (es : List GuardEvent) (s : GuardState),
        GuardInv s → GuardInv (guardRun s es) := by
      intro es
      induction es with
      | nil => intro s hs; exact hs
      | cons e es ih => intro s hs; exact ih _ (step s e hs)
    exact run events guardInit (by constructor <;> simp [guardInit, GuardInv])
  · intro s h
    simp [guardStep, h]
  · intro s h
    simp [guardStep, h]

/-- Witness for C6: a settings change arriving with the flag set is a no-op,
completion clears the flag, and the invariant holds after a concrete event
trace containing a concurrent (skipped) settings change. -/
theorem applySettings_reentrancy_guard_witness :
    GuardInv (guardRun guardInit
      [GuardEvent.settingsChange, GuardEvent.settingsChange,
       GuardEvent.passComplete]) ∧
    guardStep ⟨true, 1⟩ GuardEvent.settingsChange = ⟨true, 1⟩ ∧
    (guardStep ⟨true, 1⟩ GuardEvent.passComplete).applying = false := by
  obtain ⟨h1, h2, h3⟩ := applySettings_reentrancy_guard
  exact ⟨h1 _, h2 ⟨true, 1⟩ rfl, h3 ⟨true, 1⟩ (by decide)⟩

/-- C10: settings mutations are isolated per device — `updateSettings` and
the batched correction merge of a reconciliation pass leave every other
device's entry unchanged, and with no current device id `updateSettings`,
`resetAllSettings` and `resetSection` leave the whole map unchanged. -/
theorem settings_device_isolation :
    (∀ (d d' : String) (store : SettingsStore)
        (p : List (Control × SettingValue)),
      d' ≠ d → updateSettings (some d) store p d' = store d') ∧
    (∀ (caps : Capabilities) (d d' : String) (store : SettingsStore),
      d' ≠ d → (applySettingsPass caps d store).store d' = store d') ∧
    (∀ (store : SettingsStore) (p : List (Control × SettingValue)),
      updateSettings none store p = store) ∧
    (∀ store : SettingsStore, resetAllSettings none store = store) ∧
    (∀ (store : SettingsStore) (sec : SettingsSection),
      resetSection none store sec = store) := by
  refine ⟨?_, ?_, fun _ _ => rfl, fun _ => rfl, fun _ _ => rfl⟩
  · intro d d' store p h
    simp [updateSettings, storeSet, h]
  · intro caps d d' store h
    by_cases hne : (runApplyPass caps ((store d).getD DEFAULT_SETTINGS)).1 = [] <;>
      simp [applySettingsPass, hne, storeSet, h]

/-- Witness for C10 on concrete devices "a" and "b" with an empty store. -/
theorem settings_device_isolation_witness :
    updateSettings (some "b") (fun _ => none) [] "a" = none ∧
    (applySettingsPass (fun _ => none) "b" (fun _ => none)).store "a" = none ∧
    updateSettings none (fun _ => none) [] = (fun _ => none : SettingsStore) := by
  obtain ⟨h1, h2, h3, -, -⟩ := settings_device_isolation
  exact ⟨h1 "b" "a" (fun _ => none) [] (by decide),
    h2 (fun _ => none) "b" "a" (fun _ => none) (by decide),
    h3 (fun _ => none) []⟩

end Webcam
